import Mathlib

/-!
Verification of the nilix allocation subsystem: a shallow embedding of
src/allocator.rs and src/region.rs, together with models of the collaborator
modules (constants, size_class, header, arena, alloc_head and the block
store) that the crate references but whose sources are not part of this
snapshot; those models follow the design document and are pinned down by the
unit tests that live inside src/allocator.rs.  Addresses are natural
numbers; the u16 truncation of the encoded size is modelled by an explicit
reduction modulo 2 ^ 16.
-/

/-- Modelled from the spec: constants.rs is not in src.  The block size is a
power of two; 2 ^ 15 is consistent with every in-source test (two
allocations of BLOCK_CAPACITY / 2 bytes need two blocks, an 80000-byte
object is Large, a 512-byte object is Medium). -/
def BLOCK_SIZE : Nat := 32768

/-- Modelled from the spec: constants.rs is not in src.  Line granularity of
per-block bookkeeping; the Small class bound.  The in-source tests only need
a value strictly between 24 and 516. -/
def LINE_SIZE : Nat := 128

/-- Modelled from the spec: usable block capacity is the block size minus
the internal bookkeeping reserve (one line). -/
def BLOCK_CAPACITY : Nat := BLOCK_SIZE - LINE_SIZE

/-- From the comment in region.rs: one region backs 32 blocks. -/
def REGION_SIZE : Nat := 32 * BLOCK_SIZE

/-- Modelled from the spec: the maximum representable single allocation
size, anchored by the in-source test alloc_too_big at the 32-bit
boundary. -/
def MAX_ALLOC_SIZE : Nat := 2 ^ 32 - 1

/-- std::alloc::Layout as the crate uses it: a byte size and an alignment. -/
structure Layout where
  size : Nat
  align : Nat
  deriving DecidableEq

/-- Modelled from the spec: header.rs is not in src.  Marks are a small
closed set of color values; Red appears in the in-source tests. -/
inductive Mark where
  | New
  | Red
  | Green
  | Blue
  deriving DecidableEq

/-- Modelled from the spec: the u8-to-Mark conversion used when the shared
atomic mark byte is read back (Mark::from in the source). -/
def Mark.fromU8 (b : Nat) : Mark :=
  match b with
  | 0 => .New
  | 1 => .Red
  | 2 => .Green
  | _ => .Blue

/-- Size classes of the crate: Small / Medium / Large. -/
inductive SizeClass where
  | Small
  | Medium
  | Large
  deriving DecidableEq

/-- Modelled from the spec: size_class.rs is not in src.  A header-inclusive
byte count maps to Small (line-sized), Medium (fits usable block capacity)
or Large (over capacity); classification fails past the maximum
representable allocation size. -/
def SizeClass.get_for_size (size : Nat) : Except Unit SizeClass :=
  if size ≤ LINE_SIZE then .ok .Small
  else if size ≤ BLOCK_CAPACITY then .ok .Medium
  else if size ≤ MAX_ALLOC_SIZE then .ok .Large
  else .error ()

/-- Modelled from the spec: header.rs is not in src.  A header stores the
size class, the 16-bit encoded size and the mark byte. -/
structure Header where
  size_class : SizeClass
  encoded_size : Nat
  mark : Mark
  deriving DecidableEq

/-- Modelled from the spec: size_of for the Header record (a one-byte
enum, a u16 and a one-byte mark under default Rust layout). -/
def HEADER_SIZE : Nat := 4

/-- Modelled from the spec: align_of for the Header record (that of its
widest field, the u16 encoded size). -/
def HEADER_ALIGN : Nat := 2

/-- Header::new as invoked from Allocator::alloc: the source converts the
allocation size with (as u16), modelled by reduction modulo 2 ^ 16; a fresh
header carries the default color. -/
def Header.new (sc : SizeClass) (size : Nat) : Header :=
  { size_class := sc, encoded_size := size % 2 ^ 16, mark := Mark.New }

/-- Object memory: the header value stored at each (header) address. -/
abbrev Heap := Nat → Header

/-- A store of a header at an address (ptr::write in the source). -/
def hwrite (h : Heap) (addr : Nat) (hd : Header) : Heap :=
  fun a => if a = addr then hd else h a

/-- Region from src/region.rs: a base pointer and the layout it was created
with. -/
structure Region where
  ptr : Nat
  layout : Layout
  deriving DecidableEq

/-- Region::new from src/region.rs: one raw platform allocation; the
platform is modelled as an optional base address, none when it cannot
satisfy the request (the null-pointer branch of Region::alloc). -/
def Region.new (sys : Option Nat) (layout : Layout) : Except Unit Region :=
  match sys with
  | none => .error ()
  | some p => .ok { ptr := p, layout := layout }

/-- Region::at_offset from src/region.rs: returns base + offset; the debug
assertion in the source compares the offset against the constant
REGION_SIZE, modelled here as a guard that yields none when the assertion
fails. -/
def Region.at_offset (r : Region) (offset : Nat) : Option Nat :=
  if offset < REGION_SIZE then some (r.ptr + offset) else none

/-- Region::get_size from src/region.rs: the size of the construction
layout. -/
def Region.get_size (r : Region) : Nat := r.layout.size

/-- Modelled from the spec: arena.rs and the block store are not in src.
The arena owns the store of free standard blocks, the checked-out standard
blocks, the checked-out dedicated chunks of Large objects together with
their byte sizes, the supply of dedicated chunks, and the shared atomic
mark byte.  Every block or chunk address handed out is block-aligned
because regions are aligned to the block size and sliced into blocks. -/
structure Arena where
  free : List Nat
  used : List Nat
  largeUsed : List (Nat × Nat)
  largeSupply : List Nat
  current_mark : Nat
  deriving DecidableEq

/-- Modelled from the spec: the bump cursor of alloc_head.rs — the current
block and the write offset into it. -/
structure AllocHead where
  blockStart : Option Nat
  offset : Nat
  deriving DecidableEq

/-- The whole allocation state: arena (with its block store), bump cursor
and object memory. -/
structure AllocState where
  arena : Arena
  head : AllocHead
  heap : Heap

/-- Modelled from the spec: Arena::new checks out zero blocks; the store
contents are parameters of the model. -/
def Arena.new (free largeSupply : List Nat) : Arena :=
  { free := free, used := [], largeUsed := [], largeSupply := largeSupply,
    current_mark := 0 }

/-- Modelled from the spec: Arena::get_size sums the sizes of the
checked-out blocks — a whole block for each standard block and the exact
allocation size for a dedicated Large chunk, as fixed by the in-source test
arena_get_size. -/
def Arena.get_size (a : Arena) : Nat :=
  BLOCK_SIZE * a.used.length + (a.largeUsed.map Prod.snd).sum

/-- Modelled from the spec: Arena::refresh recycles every checked-out block
back to the store and keeps exactly one fresh block. -/
def Arena.refresh (a : Arena) : Arena :=
  match a.used ++ a.free with
  | [] =>
    { a with used := [], largeUsed := [],
             largeSupply := a.largeUsed.map Prod.fst ++ a.largeSupply }
  | b :: rest =>
    { free := rest, used := [b], largeUsed := [],
      largeSupply := a.largeUsed.map Prod.fst ++ a.largeSupply,
      current_mark := a.current_mark }

/-- Round an offset up to the next multiple of the alignment. -/
def alignUp (offset align : Nat) : Nat := (offset + align - 1) / align * align

/-- Modelled from the spec: step 3 of the bump cursor — acquire a fresh
block from the store (failing when it is exhausted), place the object at
its start and move the cursor past it. -/
def freshAlloc (st : AllocState) (size : Nat) : Except Unit (Nat × AllocState) :=
  match st.arena.free with
  | [] => .error ()
  | b :: rest =>
    .ok (b, { st with
      arena := { st.arena with free := rest, used := b :: st.arena.used },
      head := { blockStart := some b, offset := size } })

/-- Modelled from the spec: AllocHead::alloc.  A request over the usable
block capacity (that is, a Large one) takes a dedicated chunk sized to the
request; otherwise the object is bump-placed at the aligned offset of the
current block when it fits, and a fresh block is started when it does not
or when no block is held yet. -/
def AllocHead.alloc (st : AllocState) (size align : Nat) :
    Except Unit (Nat × AllocState) :=
  if BLOCK_CAPACITY < size then
    match st.arena.largeSupply with
    | [] => .error ()
    | c :: rest =>
      .ok (c, { st with
        arena := { st.arena with
                   largeSupply := rest,
                   largeUsed := (c, size) :: st.arena.largeUsed } })
  else
    match st.head.blockStart with
    | some b =>
      if alignUp st.head.offset align + size ≤ BLOCK_CAPACITY then
        .ok (b + alignUp st.head.offset align,
             { st with head := { blockStart := some b,
                                 offset := alignUp st.head.offset align + size } })
      else freshAlloc st size
    | none => freshAlloc st size

/-- The alignment Allocator::alloc computes at line 32 of allocator.rs. -/
def allocAlignOf (layout : Layout) : Nat := max HEADER_ALIGN layout.align

/-- The padding Allocator::alloc computes at line 34 of allocator.rs. -/
def paddingFor (align : Nat) : Nat := (align - HEADER_SIZE % align) % align

/-- The header-and-padding-inclusive total size of line 35 of
allocator.rs. -/
def allocSizeOf (layout : Layout) : Nat :=
  HEADER_SIZE + paddingFor (allocAlignOf layout) + layout.size

/-- Allocator::alloc from src/allocator.rs lines 31-51: classify the padded
total size, build the header (with the u16 truncation of line 41), place
through the allocation head, write the header at the block address and
return the address just past header plus padding. -/
def Allocator.alloc (st : AllocState) (layout : Layout) :
    Except Unit (Nat × AllocState) :=
  match SizeClass.get_for_size (allocSizeOf layout) with
  | .error _ => .error ()
  | .ok size_class =>
    match AllocHead.alloc st (allocSizeOf layout) (allocAlignOf layout) with
    | .error _ => .error ()
    | .ok (space, st1) =>
      .ok (space + (HEADER_SIZE + paddingFor (allocAlignOf layout)),
           { st1 with
             heap := hwrite st1.heap space
                       (Header.new size_class (allocSizeOf layout)) })

/-- Allocator::get_header from src/allocator.rs lines 70-81, written out
exactly as the source computes it — the read-side mirror of the
allocation-time layout arithmetic.  The first argument is the static
alignment of the pointee type. -/
def Allocator.get_header (tAlign object : Nat) : Nat :=
  object -
    (HEADER_SIZE +
      (max HEADER_ALIGN tAlign - HEADER_SIZE % max HEADER_ALIGN tAlign) %
        max HEADER_ALIGN tAlign)

/-- Allocator::get_mark from src/allocator.rs lines 53-57: recover the
header and read its mark byte (Header::get_mark, modelled from the spec as
the read of the mark field). -/
def Allocator.get_mark (h : Heap) (tAlign ptr : Nat) : Mark :=
  (h (Allocator.get_header tAlign ptr)).mark

/-- Allocator::set_mark from src/allocator.rs lines 59-63: recover the
header and write its mark byte in place (Header::set_mark, modelled from
the spec as the store of the mark field). -/
def Allocator.set_mark (h : Heap) (tAlign ptr : Nat) (m : Mark) : Heap :=
  fun a =>
    if a = Allocator.get_header tAlign ptr then { h a with mark := m } else h a

/-- Allocator::get_current_mark from src/allocator.rs lines 83-85: read the
shared atomic byte and convert it to a Mark. -/
def Allocator.get_current_mark (st : AllocState) : Mark :=
  Mark.fromU8 st.arena.current_mark

/-- Allocator::is_old from src/allocator.rs lines 65-67: the stored mark
compared against the arena's current mark. -/
def Allocator.is_old (st : AllocState) (tAlign ptr : Nat) : Bool :=
  decide (Allocator.get_mark st.heap tAlign ptr = Allocator.get_current_mark st)

/-- The object address of a successful allocation. -/
def allocAddr (st : AllocState) (layout : Layout) : Option Nat :=
  match Allocator.alloc st layout with
  | .ok (obj, _) => some obj
  | .error _ => none

/-- The header recovered through Allocator::get_header, with the pointee
alignment of the request, in the state a successful allocation leaves. -/
def allocHeaderAt (st : AllocState) (layout : Layout) : Option Header :=
  match Allocator.alloc st layout with
  | .ok (obj, st1) => some (st1.heap (Allocator.get_header layout.align obj))
  | .error _ => none

/-- The arena size reported after a successful allocation. -/
def allocArenaSize (st : AllocState) (layout : Layout) : Option Nat :=
  match Allocator.alloc st layout with
  | .ok (_, st1) => some (Arena.get_size st1.arena)
  | .error _ => none

/-- Whether an allocation succeeds. -/
def allocOk (st : AllocState) (layout : Layout) : Bool :=
  match Allocator.alloc st layout with
  | .ok _ => true
  | .error _ => false

/-- Well-formedness of a state: every block or dedicated chunk address the
store can hand out, and the currently held block, is block-aligned (regions
are aligned to the block size and sliced into block-sized pieces). -/
def StateWF (st : AllocState) : Prop :=
  (∀ b ∈ st.arena.free, b % BLOCK_SIZE = 0) ∧
  (∀ b ∈ st.arena.largeSupply, b % BLOCK_SIZE = 0) ∧
  (∀ b ∈ st.head.blockStart.toList, b % BLOCK_SIZE = 0)

instance (st : AllocState) : Decidable (StateWF st) := by
  unfold StateWF
  infer_instance

/-- A heap with nothing written yet. -/
def heap0 : Heap := fun _ => Header.new SizeClass.Small 0

/-- A concrete starting state: a store holding one free standard block at
address 32768 and one dedicated chunk at address 65536, nothing checked
out, no current block. -/
def stInit : AllocState :=
  { arena := { free := [32768], used := [], largeUsed := [],
               largeSupply := [65536], current_mark := 0 },
    head := { blockStart := none, offset := 0 },
    heap := heap0 }

/-- The state stInit reaches after the allocation head places a 24-byte
request: block 32768 checked out, cursor past the object. -/
def stAfterFresh : AllocState :=
  { arena := { free := [], used := [32768], largeUsed := [],
               largeSupply := [65536], current_mark := 0 },
    head := { blockStart := some 32768, offset := 24 },
    heap := heap0 }

/-- A concrete state distinct from stInit in every component the allocator
could consult: different store, cursor and mark byte. -/
def stOther : AllocState :=
  { arena := { free := [], used := [0], largeUsed := [(98304, 80004)],
               largeSupply := [], current_mark := 3 },
    head := { blockStart := some 0, offset := 77 },
    heap := heap0 }

/-- A concrete arena with two blocks and one dedicated chunk checked out. -/
def arenaBusy : Arena :=
  { free := [0], used := [32768, 65536], largeUsed := [(98304, 100)],
    largeSupply := [], current_mark := 0 }

/-- The layout of the hello_alloc test: a &str reference, 16 bytes at
alignment 8. -/
def layoutStr : Layout := { size := 16, align := 8 }

/-- The layout of the alloc_too_big test: u32::MAX bytes at alignment 8. -/
def layoutHuge : Layout := { size := 2 ^ 32 - 1, align := 8 }

/-- A layout whose padded total size is exactly the maximum representable
allocation size. -/
def layoutEdge : Layout := { size := 2 ^ 32 - 9, align := 8 }

/-- The layout of the large object of the arena_get_size test: 80000 bytes
at alignment 1. -/
def layoutBig : Layout := { size := 80000, align := 1 }

/-- The layout of a single byte (the alloc_many_single_bytes test). -/
def layoutByte : Layout := { size := 1, align := 1 }

/-- A layout whose padded total size overflows the 16-bit encoded size
field while classifying Large. -/
def layoutOver16 : Layout := { size := 100000, align := 1 }

/-- The padding formula completes the header size to a multiple of the
alignment. -/
theorem padding_add_dvd (s al : Nat) (h : 0 < al) : al ∣ s + (al - s % al) % al := by
  rcases Nat.eq_zero_or_pos (s % al) with h0 | hp
  · rw [h0, Nat.sub_zero, Nat.mod_self, Nat.add_zero]
    exact Nat.dvd_of_mod_eq_zero h0
  · have hlt : al - s % al < al := by
      have := Nat.mod_lt s h
      omega
    rw [Nat.mod_eq_of_lt hlt]
    have hdm := Nat.div_add_mod s al
    have hr : s % al < al := Nat.mod_lt s h
    have hs : s + (al - s % al) = al * (s / al) + al := by omega
    rw [hs]
    exact Nat.dvd_add (Dvd.intro _ rfl) dvd_rfl

/-- Rounding up to the alignment yields a multiple of it. -/
theorem alignUp_dvd (offset al : Nat) : al ∣ alignUp offset al := by
  unfold alignUp
  exact Dvd.intro_left _ rfl

/-- A size the classifier accepts is at most the maximum representable
one. -/
theorem get_for_size_le (s : Nat) (sc : SizeClass)
    (h : SizeClass.get_for_size s = .ok sc) : s ≤ MAX_ALLOC_SIZE := by
  unfold SizeClass.get_for_size at h
  split at h
  · have : LINE_SIZE ≤ MAX_ALLOC_SIZE := by decide
    omega
  · split at h
    · have : BLOCK_CAPACITY ≤ MAX_ALLOC_SIZE := by decide
      omega
    · split at h
      · omega
      · exact absurd h (by simp)

/-- A size classified Small or Medium fits the usable block capacity. -/
theorem get_for_size_not_large (s : Nat) (sc : SizeClass)
    (h : SizeClass.get_for_size s = .ok sc) (hsc : sc ≠ SizeClass.Large) :
    s ≤ BLOCK_CAPACITY := by
  unfold SizeClass.get_for_size at h
  split at h
  · have : LINE_SIZE ≤ BLOCK_CAPACITY := by decide
    omega
  · split at h
    · omega
    · split at h
      · exact absurd (Except.ok.inj h).symm hsc
      · exact absurd h (by simp)

/-- A size over the usable block capacity but within the representable
bound is classified Large. -/
theorem get_for_size_large (s : Nat) (h1 : BLOCK_CAPACITY < s)
    (h2 : s ≤ MAX_ALLOC_SIZE) : SizeClass.get_for_size s = .ok .Large := by
  unfold SizeClass.get_for_size
  have hl : ¬ s ≤ LINE_SIZE := by
    have : LINE_SIZE ≤ BLOCK_CAPACITY := by decide
    omega
  rw [if_neg hl, if_neg (by omega), if_pos h2]

/-- A size within the usable block capacity is accepted by the
classifier. -/
theorem get_for_size_fits (s : Nat) (h : s ≤ BLOCK_CAPACITY) :
    ∃ sc, SizeClass.get_for_size s = .ok sc ∧ sc ≠ SizeClass.Large := by
  unfold SizeClass.get_for_size
  by_cases hs : s ≤ LINE_SIZE
  · exact ⟨.Small, by rw [if_pos hs], by simp⟩
  · exact ⟨.Medium, by rw [if_neg hs, if_pos h], by simp⟩

/-- A size past the representable bound is rejected by the classifier. -/
theorem get_for_size_err (s : Nat) (h : MAX_ALLOC_SIZE < s) :
    SizeClass.get_for_size s = .error () := by
  unfold SizeClass.get_for_size
  have h1 : ¬ s ≤ LINE_SIZE := by
    have : LINE_SIZE ≤ MAX_ALLOC_SIZE := by decide
    omega
  have h2 : ¬ s ≤ BLOCK_CAPACITY := by
    have : BLOCK_CAPACITY ≤ MAX_ALLOC_SIZE := by decide
    omega
  rw [if_neg h1, if_neg h2, if_neg (by omega)]

/-- Shape of a successful Allocator::alloc, given the classifier verdict
and the placement the allocation head performed. -/
theorem alloc_shape (st : AllocState) (layout : Layout) (sc : SizeClass)
    (space : Nat) (st1 : AllocState)
    (hsc : SizeClass.get_for_size (allocSizeOf layout) = .ok sc)
    (hh : AllocHead.alloc st (allocSizeOf layout) (allocAlignOf layout) =
            .ok (space, st1)) :
    Allocator.alloc st layout =
      .ok (space + (HEADER_SIZE + paddingFor (allocAlignOf layout)),
           { st1 with
             heap := hwrite st1.heap space
                       (Header.new sc (allocSizeOf layout)) }) := by
  unfold Allocator.alloc
  rw [hsc, hh]

/-- Inversion of a successful Allocator::alloc into its classifier verdict,
placement, returned address and header store. -/
theorem alloc_inv (st : AllocState) (layout : Layout) (obj : Nat)
    (st2 : AllocState) (h : Allocator.alloc st layout = .ok (obj, st2)) :
    ∃ sc space st1,
      SizeClass.get_for_size (allocSizeOf layout) = .ok sc ∧
      AllocHead.alloc st (allocSizeOf layout) (allocAlignOf layout) =
        .ok (space, st1) ∧
      obj = space + (HEADER_SIZE + paddingFor (allocAlignOf layout)) ∧
      st2 = { st1 with
              heap := hwrite st1.heap space
                        (Header.new sc (allocSizeOf layout)) } := by
  unfold Allocator.alloc at h
  cases hsc : SizeClass.get_for_size (allocSizeOf layout) with
  | error e =>
    rw [hsc] at h
    exact Except.noConfusion h
  | ok sc =>
    cases hh : AllocHead.alloc st (allocSizeOf layout) (allocAlignOf layout) with
    | error e =>
      simp only [hsc, hh] at h
      exact Except.noConfusion h
    | ok p =>
      obtain ⟨space, st1⟩ := p
      simp only [hsc, hh, Except.ok.injEq, Prod.mk.injEq] at h
      obtain ⟨h1, h2⟩ := h
      exact ⟨sc, space, st1, rfl, rfl, h1.symm, h2.symm⟩

/-- Header recovery at the address an allocation returns lands exactly on
the block address the allocation placed the header at: the subtraction of
get_header cancels the header-plus-padding advance of alloc. -/
theorem get_header_cancel (layout : Layout) (space : Nat) :
    Allocator.get_header layout.align
      (space + (HEADER_SIZE + paddingFor (allocAlignOf layout))) = space := by
  show space + (HEADER_SIZE + paddingFor (allocAlignOf layout)) -
        (HEADER_SIZE + paddingFor (allocAlignOf layout)) = space
  omega

/-- A block handed out by freshAlloc comes from the free list, hence is
block-aligned. -/
theorem freshAlloc_aligned (st : AllocState) (size al space : Nat)
    (st1 : AllocState) (hfree : ∀ b ∈ st.arena.free, b % BLOCK_SIZE = 0)
    (hal : al ∣ BLOCK_SIZE) (h : freshAlloc st size = .ok (space, st1)) :
    al ∣ space := by
  unfold freshAlloc at h
  cases hf : st.arena.free with
  | nil =>
    rw [hf] at h
    exact Except.noConfusion h
  | cons b rest =>
    rw [hf] at h
    simp only [Except.ok.injEq, Prod.mk.injEq] at h
    obtain ⟨h1, _⟩ := h
    have hb : b % BLOCK_SIZE = 0 := hfree b (by rw [hf]; exact List.mem_cons_self b rest)
    exact h1 ▸ dvd_trans hal (Nat.dvd_of_mod_eq_zero hb)

/-- Every address the allocation head returns is a multiple of the
requested alignment, provided that alignment divides the block size and the
state is well formed. -/
theorem allocHead_aligned (st : AllocState) (size al space : Nat)
    (st1 : AllocState) (hwf : StateWF st) (hal : al ∣ BLOCK_SIZE)
    (h : AllocHead.alloc st size al = .ok (space, st1)) : al ∣ space := by
  obtain ⟨hfree, hlargeS, hblock⟩ := hwf
  unfold AllocHead.alloc at h
  by_cases hc : BLOCK_CAPACITY < size
  · rw [if_pos hc] at h
    cases hls : st.arena.largeSupply with
    | nil =>
      rw [hls] at h
      exact Except.noConfusion h
    | cons c rest =>
      rw [hls] at h
      simp only [Except.ok.injEq, Prod.mk.injEq] at h
      obtain ⟨h1, _⟩ := h
      have hcb : c % BLOCK_SIZE = 0 :=
        hlargeS c (by rw [hls]; exact List.mem_cons_self c rest)
      exact h1 ▸ dvd_trans hal (Nat.dvd_of_mod_eq_zero hcb)
  · rw [if_neg hc] at h
    cases hb : st.head.blockStart with
    | some b =>
      simp only [hb] at h
      by_cases hfit : alignUp st.head.offset al + size ≤ BLOCK_CAPACITY
      · rw [if_pos hfit] at h
        simp only [Except.ok.injEq, Prod.mk.injEq] at h
        obtain ⟨h1, _⟩ := h
        have hbb : b % BLOCK_SIZE = 0 := by
          apply hblock
          rw [hb]
          simp [Option.toList]
        have : al ∣ b + alignUp st.head.offset al :=
          Nat.dvd_add (dvd_trans hal (Nat.dvd_of_mod_eq_zero hbb))
            (alignUp_dvd st.head.offset al)
        exact h1 ▸ this
      · rw [if_neg hfit] at h
        exact freshAlloc_aligned st size al space st1 hfree hal h
    | none =>
      simp only [hb] at h
      exact freshAlloc_aligned st size al space st1 hfree hal h

/-- Checking out one more standard block grows the reported arena size by
exactly one block. -/
theorem get_size_push_block (a : Arena) (b : Nat) (rest : List Nat) :
    Arena.get_size { a with free := rest, used := b :: a.used } =
      Arena.get_size a + BLOCK_SIZE := by
  unfold Arena.get_size
  simp only [List.length_cons]
  ring

/-- Checking out a dedicated chunk grows the reported arena size by the
exact chunk size. -/
theorem get_size_push_large (a : Arena) (c size : Nat) (rest : List Nat) :
    Arena.get_size
        { a with largeSupply := rest,
                 largeUsed := (c, size) :: a.largeUsed } =
      Arena.get_size a + size := by
  unfold Arena.get_size
  simp only [List.map_cons, List.sum_cons]
  ring

/-- The object address of a successful allocation, from its classifier
verdict and placement. -/
theorem allocAddr_of_shape (st : AllocState) (layout : Layout)
    (sc : SizeClass) (space : Nat) (st1 : AllocState)
    (hsc : SizeClass.get_for_size (allocSizeOf layout) = .ok sc)
    (hh : AllocHead.alloc st (allocSizeOf layout) (allocAlignOf layout) =
            .ok (space, st1)) :
    allocAddr st layout =
      some (space + (HEADER_SIZE + paddingFor (allocAlignOf layout))) := by
  have hshape := alloc_shape st layout sc space st1 hsc hh
  simp only [allocAddr, hshape]

/-- The header read back through get_header after a successful allocation
is the header built at allocation time. -/
theorem allocHeaderAt_of_shape (st : AllocState) (layout : Layout)
    (sc : SizeClass) (space : Nat) (st1 : AllocState)
    (hsc : SizeClass.get_for_size (allocSizeOf layout) = .ok sc)
    (hh : AllocHead.alloc st (allocSizeOf layout) (allocAlignOf layout) =
            .ok (space, st1)) :
    allocHeaderAt st layout = some (Header.new sc (allocSizeOf layout)) := by
  have hshape := alloc_shape st layout sc space st1 hsc hh
  simp only [allocHeaderAt, hshape]
  rw [get_header_cancel layout space]
  simp [hwrite]

/-- C1: header recovery mirrors allocation.  For an allocation that the
classifier accepted with class sc and that the allocation head placed at
the block address space, the returned object address is space plus header
plus padding, get_header applied to that object address with the object's
static alignment recomputes exactly space — the address the header was
written at — and the header found there carries the size class computed at
allocation time for the padded total size. -/
theorem alloc_header_mirror (st : AllocState) (layout : Layout)
    (sc : SizeClass) (space : Nat) (st1 : AllocState)
    (hsc : SizeClass.get_for_size (allocSizeOf layout) = .ok sc)
    (hh : AllocHead.alloc st (allocSizeOf layout) (allocAlignOf layout) =
            .ok (space, st1)) :
    allocAddr st layout =
      some (space + (HEADER_SIZE + paddingFor (allocAlignOf layout))) ∧
    Allocator.get_header layout.align
        (space + (HEADER_SIZE + paddingFor (allocAlignOf layout))) = space ∧
    allocHeaderAt st layout = some (Header.new sc (allocSizeOf layout)) :=
  ⟨allocAddr_of_shape st layout sc space st1 hsc hh,
   get_header_cancel layout space,
   allocHeaderAt_of_shape st layout sc space st1 hsc hh⟩

/-- Witness for C1 at a concrete input: the hello_alloc layout allocated
from the concrete starting state. -/
theorem alloc_header_mirror_check :
    allocAddr stInit layoutStr =
      some (32768 + (HEADER_SIZE + paddingFor (allocAlignOf layoutStr))) ∧
    Allocator.get_header layoutStr.align
        (32768 + (HEADER_SIZE + paddingFor (allocAlignOf layoutStr))) = 32768 ∧
    allocHeaderAt stInit layoutStr =
      some (Header.new SizeClass.Small (allocSizeOf layoutStr)) :=
  alloc_header_mirror stInit layoutStr SizeClass.Small 32768 stAfterFresh rfl rfl

/-- The request alignment divides the allocation alignment and the
allocation alignment divides the block size, whenever the request alignment
does and is nonzero. -/
theorem allocAlign_dvd_block (layout : Layout)
    (hla : layout.align ∣ BLOCK_SIZE) (hpos : layout.align ≠ 0) :
    layout.align ∣ allocAlignOf layout ∧ allocAlignOf layout ∣ BLOCK_SIZE := by
  unfold allocAlignOf HEADER_ALIGN
  by_cases hc : 2 ≤ layout.align
  · rw [Nat.max_eq_right hc]
    exact ⟨dvd_rfl, hla⟩
  · have h1 : layout.align = 1 := by omega
    rw [h1, Nat.max_eq_left (by omega)]
    exact ⟨one_dvd 2, Nat.dvd_of_mod_eq_zero (by decide)⟩

/-- C2: alignment postcondition.  For every well-formed state and every
layout whose alignment divides the block size, the object address a
successful Allocator::alloc returns is a multiple of the layout's
alignment — the Large dedicated-chunk path included. -/
theorem alloc_object_aligned (st : AllocState) (layout : Layout) (obj : Nat)
    (hwf : StateWF st) (hla : BLOCK_SIZE % layout.align = 0)
    (h : allocAddr st layout = some obj) : obj % layout.align = 0 := by
  have hpos : layout.align ≠ 0 := by
    intro h0
    rw [h0, Nat.mod_zero] at hla
    exact absurd hla (by decide)
  have hdvd : layout.align ∣ BLOCK_SIZE := Nat.dvd_of_mod_eq_zero hla
  obtain ⟨hh1, hh2⟩ := allocAlign_dvd_block layout hdvd hpos
  unfold allocAddr at h
  cases ha : Allocator.alloc st layout with
  | error e =>
    rw [ha] at h
    exact Option.noConfusion h
  | ok p =>
    obtain ⟨obj2, st2⟩ := p
    simp only [ha, Option.some.injEq] at h
    subst h
    obtain ⟨sc, space, st1, hsc, hh, hobj, hst⟩ := alloc_inv st layout obj2 st2 ha
    have halpos : 0 < allocAlignOf layout := by
      have h2 : HEADER_ALIGN ≤ allocAlignOf layout := Nat.le_max_left _ _
      have : 0 < HEADER_ALIGN := by decide
      omega
    have hsp : allocAlignOf layout ∣ space :=
      allocHead_aligned st (allocSizeOf layout) (allocAlignOf layout) space st1
        hwf hh2 hh
    have hpad : allocAlignOf layout ∣
        HEADER_SIZE + paddingFor (allocAlignOf layout) := by
      unfold paddingFor
      exact padding_add_dvd HEADER_SIZE _ halpos
    have hdobj : layout.align ∣ obj2 := by
      rw [hobj]
      exact Nat.dvd_add (dvd_trans hh1 hsp) (dvd_trans hh1 hpad)
    obtain ⟨k, hk⟩ := hdobj
    rw [hk]
    exact Nat.mul_mod_right _ _

/-- Witness for C2 at a concrete input: the hello_alloc layout allocated
from the concrete starting state lands at 32776, a multiple of 8. -/
theorem alloc_object_aligned_check :
    StateWF stInit ∧ BLOCK_SIZE % layoutStr.align = 0 ∧
    allocAddr stInit layoutStr = some 32776 ∧ 32776 % layoutStr.align = 0 :=
  ⟨by decide, by decide, rfl,
   alloc_object_aligned stInit layoutStr 32776 (by decide) (by decide) rfl⟩

/-- C3: oversize requests fail cleanly.  Whenever the header-and-padding
inclusive total size exceeds the maximum representable allocation size,
Allocator::alloc returns the generic allocation error, for every state;
and an allocation over block capacity but at or just under the boundary
succeeds whenever the store can supply a dedicated chunk. -/
theorem alloc_oversize (st : AllocState) (layout : Layout) :
    (MAX_ALLOC_SIZE < allocSizeOf layout →
      Allocator.alloc st layout = .error ()) ∧
    (BLOCK_CAPACITY < allocSizeOf layout →
      allocSizeOf layout ≤ MAX_ALLOC_SIZE →
      st.arena.largeSupply ≠ [] → allocOk st layout = true) := by
  constructor
  · intro hbig
    unfold Allocator.alloc
    rw [get_for_size_err _ hbig]
  · intro h1 h2 hsup
    cases hls : st.arena.largeSupply with
    | nil => exact absurd hls hsup
    | cons c rest =>
      have hh : AllocHead.alloc st (allocSizeOf layout) (allocAlignOf layout) =
          .ok (c, { st with
            arena := { st.arena with
                       largeSupply := rest,
                       largeUsed := (c, allocSizeOf layout) ::
                         st.arena.largeUsed } }) := by
        unfold AllocHead.alloc
        rw [if_pos h1, hls]
      have hshape :=
        alloc_shape st layout .Large c _ (get_for_size_large _ h1 h2) hh
      unfold allocOk
      rw [hshape]

/-- Witness for C3 at concrete inputs: a u32::MAX request errors, a request
whose padded total is exactly the boundary succeeds. -/
theorem alloc_oversize_check :
    Allocator.alloc stInit layoutHuge = .error () ∧
    allocOk stInit layoutEdge = true :=
  ⟨(alloc_oversize stInit layoutHuge).1 (by decide),
   (alloc_oversize stInit layoutEdge).2 (by decide) (by decide) (by decide)⟩

/-- C4: 16-bit encoded size.  For every allocation classified Small or
Medium the recovered header's encoded size equals the exact padded total
size — no truncation, such sizes fit 16 bits; and an allocation whose
total overflows the 16-bit field still succeeds provided it classifies
Large (and its recovered header indeed carries the Large class, where the
field is unused). -/
theorem encoded_size_exact :
    (∀ st layout sc hd,
       SizeClass.get_for_size (allocSizeOf layout) = .ok sc →
       sc ≠ SizeClass.Large →
       allocHeaderAt st layout = some hd →
       hd.encoded_size = allocSizeOf layout) ∧
    (∀ (st : AllocState) (layout : Layout),
       2 ^ 16 ≤ allocSizeOf layout →
       allocSizeOf layout ≤ MAX_ALLOC_SIZE →
       st.arena.largeSupply ≠ [] →
       allocOk st layout = true ∧
       allocHeaderAt st layout =
         some (Header.new SizeClass.Large (allocSizeOf layout))) := by
  constructor
  · intro st layout sc hd hsc hne hhd
    cases ha : Allocator.alloc st layout with
    | error e =>
      unfold allocHeaderAt at hhd
      rw [ha] at hhd
      exact Option.noConfusion hhd
    | ok p =>
      obtain ⟨obj, st2⟩ := p
      obtain ⟨sc2, space, st1, hsc2, hh, hobj, hst⟩ :=
        alloc_inv st layout obj st2 ha
      have hread := allocHeaderAt_of_shape st layout sc2 space st1 hsc2 hh
      rw [hread] at hhd
      have hhd2 : Header.new sc2 (allocSizeOf layout) = hd :=
        Option.some.inj hhd
      have hsceq : sc2 = sc := by
        rw [hsc] at hsc2
        exact (Except.ok.inj hsc2).symm
      subst hsceq
      have hcap : allocSizeOf layout ≤ BLOCK_CAPACITY :=
        get_for_size_not_large _ sc2 hsc2 hne
      have hsmall : allocSizeOf layout < 2 ^ 16 := by
        have : BLOCK_CAPACITY < 2 ^ 16 := by decide
        omega
      rw [← hhd2]
      unfold Header.new
      exact Nat.mod_eq_of_lt hsmall
  · intro st layout h16 hmax hsup
    have hcap : BLOCK_CAPACITY < allocSizeOf layout := by
      have : BLOCK_CAPACITY < 2 ^ 16 := by decide
      omega
    cases hls : st.arena.largeSupply with
    | nil => exact absurd hls hsup
    | cons c rest =>
      have hh : AllocHead.alloc st (allocSizeOf layout) (allocAlignOf layout) =
          .ok (c, { st with
            arena := { st.arena with
                       largeSupply := rest,
                       largeUsed := (c, allocSizeOf layout) ::
                         st.arena.largeUsed } }) := by
        unfold AllocHead.alloc
        rw [if_pos hcap, hls]
      have hsc := get_for_size_large _ hcap hmax
      constructor
      · have hshape := alloc_shape st layout .Large c _ hsc hh
        unfold allocOk
        rw [hshape]
      · exact allocHeaderAt_of_shape st layout .Large c _ hsc hh

/-- Witness for C4 at concrete inputs: the hello_alloc layout carries its
exact 24-byte total in the encoded size; a 100000-byte request overflows 16
bits yet succeeds as Large. -/
theorem encoded_size_exact_check :
    (Header.new SizeClass.Small (allocSizeOf layoutStr)).encoded_size =
      allocSizeOf layoutStr ∧
    allocOk stInit layoutOver16 = true ∧
    allocHeaderAt stInit layoutOver16 =
      some (Header.new SizeClass.Large (allocSizeOf layoutOver16)) :=
  ⟨encoded_size_exact.1 stInit layoutStr SizeClass.Small
     (Header.new SizeClass.Small (allocSizeOf layoutStr)) rfl (by decide) rfl,
   (encoded_size_exact.2 stInit layoutOver16 (by decide) (by decide)
     (by decide)).1,
   (encoded_size_exact.2 stInit layoutOver16 (by decide) (by decide)
     (by decide)).2⟩

/-- C5: is_old definition.  Allocator::is_old answers true exactly when the
mark stored in the object's recovered header equals the arena's current
shared mark value at the time of the call. -/
theorem is_old_iff (st : AllocState) (tAlign ptr : Nat) :
    Allocator.is_old st tAlign ptr = true ↔
      (st.heap (Allocator.get_header tAlign ptr)).mark =
        Mark.fromU8 st.arena.current_mark := by
  unfold Allocator.is_old Allocator.get_mark Allocator.get_current_mark
  exact decide_eq_true_iff

/-- A fresh-block placement grows the reported arena size by one block. -/
theorem freshAlloc_size (st : AllocState) (size space : Nat)
    (st1 : AllocState) (h : freshAlloc st size = .ok (space, st1)) :
    Arena.get_size st1.arena = Arena.get_size st.arena + BLOCK_SIZE := by
  unfold freshAlloc at h
  cases hf : st.arena.free with
  | nil =>
    rw [hf] at h
    exact Except.noConfusion h
  | cons b rest =>
    rw [hf] at h
    simp only [Except.ok.injEq, Prod.mk.injEq] at h
    obtain ⟨_, h2⟩ := h
    rw [← h2]
    exact get_size_push_block st.arena b rest

/-- The allocation head never shrinks the reported arena size. -/
theorem allocHead_size_mono (st : AllocState) (size al space : Nat)
    (st1 : AllocState) (h : AllocHead.alloc st size al = .ok (space, st1)) :
    Arena.get_size st.arena ≤ Arena.get_size st1.arena := by
  unfold AllocHead.alloc at h
  by_cases hc : BLOCK_CAPACITY < size
  · rw [if_pos hc] at h
    cases hls : st.arena.largeSupply with
    | nil =>
      rw [hls] at h
      exact Except.noConfusion h
    | cons c rest =>
      rw [hls] at h
      simp only [Except.ok.injEq, Prod.mk.injEq] at h
      obtain ⟨_, h2⟩ := h
      rw [← h2]
      rw [get_size_push_large st.arena c size rest]
      exact Nat.le_add_right _ _
  · rw [if_neg hc] at h
    cases hb : st.head.blockStart with
    | some b =>
      simp only [hb] at h
      by_cases hfit : alignUp st.head.offset al + size ≤ BLOCK_CAPACITY
      · rw [if_pos hfit] at h
        simp only [Except.ok.injEq, Prod.mk.injEq] at h
        obtain ⟨_, h2⟩ := h
        rw [← h2]
      · rw [if_neg hfit] at h
        rw [freshAlloc_size st size space st1 h]
        exact Nat.le_add_right _ _
    | none =>
      simp only [hb] at h
      rw [freshAlloc_size st size space st1 h]
      exact Nat.le_add_right _ _

/-- C6 amended: arena size accounting.  A fresh arena reports size 0; an
allocation that starts the first block grows the reported size by exactly
one block; a small allocation fitting the current block's remaining
capacity leaves the reported size unchanged; and no allocation ever
decreases it.  The reported size is the sum of the sizes of the checked-out
blocks — one whole block for each standard block and the exact allocation
size for a dedicated Large chunk — so it is not in general the block size
times a block count. -/
theorem arena_size_accounting :
    (∀ free largeSupply, Arena.get_size (Arena.new free largeSupply) = 0) ∧
    (∀ st layout, st.head.blockStart = none →
       allocSizeOf layout ≤ BLOCK_CAPACITY →
       st.arena.free ≠ [] →
       allocArenaSize st layout =
         some (Arena.get_size st.arena + BLOCK_SIZE)) ∧
    (∀ st layout b, st.head.blockStart = some b →
       alignUp st.head.offset (allocAlignOf layout) + allocSizeOf layout ≤
         BLOCK_CAPACITY →
       allocArenaSize st layout = some (Arena.get_size st.arena)) ∧
    (∀ st layout n, allocArenaSize st layout = some n →
       Arena.get_size st.arena ≤ n) := by
  refine ⟨?_, ?_, ?_, ?_⟩
  · intro free largeSupply
    unfold Arena.new Arena.get_size
    simp
  · intro st layout hnone hfit hfree
    obtain ⟨sc, hsc, _⟩ := get_for_size_fits _ hfit
    cases hf : st.arena.free with
    | nil => exact absurd hf hfree
    | cons b rest =>
      have hh : AllocHead.alloc st (allocSizeOf layout) (allocAlignOf layout) =
          .ok (b, { st with
            arena := { st.arena with free := rest, used := b :: st.arena.used },
            head := { blockStart := some b, offset := allocSizeOf layout } }) := by
        unfold AllocHead.alloc freshAlloc
        rw [if_neg (by omega : ¬ BLOCK_CAPACITY < allocSizeOf layout)]
        simp only [hnone, hf]
      have hshape := alloc_shape st layout sc b _ hsc hh
      simp only [allocArenaSize, hshape, Option.some.injEq]
      exact get_size_push_block st.arena b rest
  · intro st layout b hsome hfit
    have hsize : allocSizeOf layout ≤ BLOCK_CAPACITY := by
      have : 0 ≤ alignUp st.head.offset (allocAlignOf layout) := Nat.zero_le _
      omega
    obtain ⟨sc, hsc, _⟩ := get_for_size_fits _ hsize
    have hh : AllocHead.alloc st (allocSizeOf layout) (allocAlignOf layout) =
        .ok (b + alignUp st.head.offset (allocAlignOf layout),
             { st with
               head :=
                 { blockStart := some b,
                   offset := alignUp st.head.offset (allocAlignOf layout) +
                             allocSizeOf layout } }) := by
      unfold AllocHead.alloc
      rw [if_neg (by omega : ¬ BLOCK_CAPACITY < allocSizeOf layout)]
      simp only [hsome]
      rw [if_pos hfit]
    have hshape :=
      alloc_shape st layout sc (b + alignUp st.head.offset (allocAlignOf layout))
        _ hsc hh
    simp only [allocArenaSize, hshape]
  · intro st layout n h
    unfold allocArenaSize at h
    cases ha : Allocator.alloc st layout with
    | error e =>
      rw [ha] at h
      exact Option.noConfusion h
    | ok p =>
      obtain ⟨obj, st2⟩ := p
      simp only [ha, Option.some.injEq] at h
      obtain ⟨sc, space, st1, hsc, hh, hobj, hst⟩ :=
        alloc_inv st layout obj st2 ha
      have hmono := allocHead_size_mono st (allocSizeOf layout)
        (allocAlignOf layout) space st1 hh
      have harena : st2.arena = st1.arena := by
        rw [hst]
      rw [← h, harena]
      exact hmono

/-- Witness for C6 at concrete inputs: a fresh arena reports 0; the first
small allocation adds one block; a following byte allocation fitting the
block changes nothing; the reported size never drops below its starting
point. -/
theorem arena_size_accounting_check :
    Arena.get_size (Arena.new [] []) = 0 ∧
    allocArenaSize stInit layoutStr =
      some (Arena.get_size stInit.arena + BLOCK_SIZE) ∧
    allocArenaSize stAfterFresh layoutByte =
      some (Arena.get_size stAfterFresh.arena) ∧
    Arena.get_size stInit.arena ≤ 32768 :=
  ⟨arena_size_accounting.1 [] [],
   arena_size_accounting.2.1 stInit layoutStr rfl (by decide) (by decide),
   arena_size_accounting.2.2.1 stAfterFresh layoutByte 32768 rfl (by decide),
   arena_size_accounting.2.2.2 stInit layoutStr 32768 rfl⟩

/-- Counterexample for C6 as stated: after a byte allocation followed by an
80000-byte Large allocation — the arena_get_size test scenario — the
reported size is 112772, which no whole number of blocks can produce, so
get_size does not always equal the block size times the number of blocks
checked out. -/
theorem arena_size_block_multiple_cex :
    (match Allocator.alloc stInit layoutByte with
     | .ok (_, st1) => allocArenaSize st1 layoutBig
     | .error _ => none) = some 112772 ∧
    ¬ BLOCK_SIZE ∣ 112772 := by
  constructor
  · rfl
  · rintro ⟨n, hn⟩
    unfold BLOCK_SIZE at hn
    omega

/-- C7: refresh collapses to one block.  For every arena with at least one
standard block checked out, Arena::refresh leaves exactly one block checked
out, no dedicated chunks, and a reported size of exactly one block. -/
theorem refresh_one_block (a : Arena) (h : a.used ≠ []) :
    (Arena.refresh a).used.length = 1 ∧
    (Arena.refresh a).largeUsed = [] ∧
    Arena.get_size (Arena.refresh a) = BLOCK_SIZE := by
  unfold Arena.refresh
  cases hu : a.used with
  | nil => exact absurd hu h
  | cons b rest =>
    simp only [List.cons_append]
    refine ⟨rfl, trivial, ?_⟩
    unfold Arena.get_size
    simp

/-- Witness for C7 at a concrete input: a busy arena with two blocks and a
dedicated chunk checked out collapses to one block. -/
theorem refresh_one_block_check :
    arenaBusy.used ≠ [] ∧
    (Arena.refresh arenaBusy).used.length = 1 ∧
    (Arena.refresh arenaBusy).largeUsed = [] ∧
    Arena.get_size (Arena.refresh arenaBusy) = BLOCK_SIZE :=
  ⟨by decide,
   (refresh_one_block arenaBusy (by decide)).1,
   (refresh_one_block arenaBusy (by decide)).2.1,
   (refresh_one_block arenaBusy (by decide)).2.2⟩

/-- C8: mark round-trip.  Setting a mark through the recovered header and
reading it back returns exactly the mark written, and is_old on the updated
state answers true exactly when the written mark equals the arena's current
mark. -/
theorem mark_roundtrip (st : AllocState) (tAlign ptr : Nat) (m : Mark) :
    Allocator.get_mark (Allocator.set_mark st.heap tAlign ptr m) tAlign ptr =
      m ∧
    (Allocator.is_old
        { st with heap := Allocator.set_mark st.heap tAlign ptr m }
        tAlign ptr = true ↔
      m = Mark.fromU8 st.arena.current_mark) := by
  have hget : Allocator.get_mark (Allocator.set_mark st.heap tAlign ptr m)
      tAlign ptr = m := by
    unfold Allocator.get_mark Allocator.set_mark
    rw [if_pos rfl]
  refine ⟨hget, ?_⟩
  unfold Allocator.is_old Allocator.get_current_mark
  rw [show ({ st with heap := Allocator.set_mark st.heap tAlign ptr m } :
        AllocState).heap = Allocator.set_mark st.heap tAlign ptr m from rfl]
  rw [hget]
  exact decide_eq_true_iff

/-- C9 amended: region offset access.  For every region and every offset
below REGION_SIZE — the constant the source's debug assertion actually
checks, which coincides with the region's size for default-sized regions —
at_offset returns base plus offset with the assertion holding; and a region
built by Region::new reports, via get_size, exactly the byte size of the
layout it was constructed with, at the base the platform returned. -/
theorem region_at_offset_spec :
    (∀ (r : Region) (o : Nat), o < REGION_SIZE →
       Region.at_offset r o = some (r.ptr + o)) ∧
    (∀ (p : Nat) (layout : Layout) (r : Region),
       Region.new (some p) layout = .ok r →
       Region.get_size r = layout.size ∧ r.ptr = p) := by
  constructor
  · intro r o ho
    unfold Region.at_offset
    rw [if_pos ho]
  · intro p layout r h
    unfold Region.new at h
    have h2 := Except.ok.inj h
    rw [← h2]
    exact ⟨rfl, rfl⟩

/-- Witness for C9 at a concrete input: a default-sized region at base 4096
and an offset of 5. -/
theorem region_at_offset_check :
    (5 : Nat) < REGION_SIZE ∧
    Region.at_offset
      { ptr := 4096, layout := { size := REGION_SIZE, align := BLOCK_SIZE } }
      5 = some (4096 + 5) ∧
    Region.new (some 4096) { size := REGION_SIZE, align := BLOCK_SIZE } =
      .ok { ptr := 4096, layout := { size := REGION_SIZE, align := BLOCK_SIZE } } ∧
    Region.get_size
      { ptr := 4096, layout := { size := REGION_SIZE, align := BLOCK_SIZE } } =
      REGION_SIZE :=
  ⟨by decide,
   region_at_offset_spec.1
     { ptr := 4096, layout := { size := REGION_SIZE, align := BLOCK_SIZE } }
     5 (by decide),
   rfl,
   (region_at_offset_spec.2 4096 { size := REGION_SIZE, align := BLOCK_SIZE }
     { ptr := 4096, layout := { size := REGION_SIZE, align := BLOCK_SIZE } }
     rfl).1⟩

/-- Counterexample for C9 as stated: Region::new accepts a layout of twice
the default region size (two regions worth of blocks, satisfying the
block-multiple invariant), its get_size exceeds REGION_SIZE, and at the
in-bounds offset REGION_SIZE — strictly below the region's total byte
size — the debug assertion offset < REGION_SIZE fails, so at_offset does
not honor every offset below the region's own size. -/
theorem region_at_offset_cex :
    Region.new (some 4096) { size := 2 * REGION_SIZE, align := BLOCK_SIZE } =
      .ok { ptr := 4096,
            layout := { size := 2 * REGION_SIZE, align := BLOCK_SIZE } } ∧
    REGION_SIZE <
      Region.get_size
        { ptr := 4096,
          layout := { size := 2 * REGION_SIZE, align := BLOCK_SIZE } } ∧
    Region.at_offset
      { ptr := 4096, layout := { size := 2 * REGION_SIZE, align := BLOCK_SIZE } }
      REGION_SIZE = none := by
  refine ⟨rfl, by decide, ?_⟩
  unfold Region.at_offset
  rw [if_neg (by omega)]

/-- C10: header recovery is state-independent and deterministic.  The
embedded Allocator::get_header takes only the pointee alignment and the
object address — no allocator, arena or heap state appears in its type,
mirroring the source's associated function — so the mark read of any two
states agrees as soon as the two heaps agree at the one recovered header
address, and a mark store through one state's heap touches no address
other than that same recovered header address. -/
theorem get_header_state_indep (st1 st2 : AllocState) (tAlign ptr : Nat)
    (m : Mark) :
    (st1.heap (Allocator.get_header tAlign ptr) =
       st2.heap (Allocator.get_header tAlign ptr) →
     Allocator.get_mark st1.heap tAlign ptr =
       Allocator.get_mark st2.heap tAlign ptr) ∧
    (∀ a, a ≠ Allocator.get_header tAlign ptr →
       Allocator.set_mark st1.heap tAlign ptr m a = st1.heap a) := by
  constructor
  · intro h
    unfold Allocator.get_mark
    rw [h]
  · intro a ha
    unfold Allocator.set_mark
    rw [if_neg ha]

/-- Witness for C10 at concrete inputs: two states differing in arena,
cursor and mark byte agree on the recovered header of pointer 32776 at
alignment 8, hence on its mark; and a mark store there leaves address 0
untouched. -/
theorem get_header_state_indep_check :
    Allocator.get_mark stInit.heap 8 32776 =
      Allocator.get_mark stOther.heap 8 32776 ∧
    Allocator.set_mark stInit.heap 8 32776 Mark.Red 0 = stInit.heap 0 :=
  ⟨(get_header_state_indep stInit stOther 8 32776 Mark.Red).1 rfl,
   (get_header_state_indep stInit stOther 8 32776 Mark.Red).2 0 (by decide)⟩
